import Mathlib

/-!
Shallow embedding of the wik repository: a minimal file-backed wiki.
The Go source consists of a Wiki type holding a root path, file-store
operations (Create, Edit, Remove, GetDir, GetPage) guarded by the
path sanitizer Local, a git shim (Commit, ExecIn) whose failures are
discarded, and the Breadcrumbs helper of the HTTP layer.

Paths are strings; the Go standard library functions the source calls
(path/filepath Clean and Join, strings HasPrefix / Split / Join) are
modelled below on the character lists underlying Lean strings,
following their documented lexical semantics. The filesystem is an
association list from absolute path strings to file contents; the
subprocess layer is an environment function whose results the code
may inspect or discard exactly as the source does.
-/

/-- Model of strings.HasPrefix from the Go standard library:
tests whether the string s begins with the string pre. -/
def strStarts (s pre : String) : Bool :=
  pre.data.isPrefixOf s.data

/-- Splitting a character list at every occurrence of the slash
character; always returns at least one (possibly empty) piece, like
strings.Split with a one-character separator. -/
def splitSlash : List Char → List (List Char)
  | [] => [[]]
  | c :: rest =>
    let r := splitSlash rest
    if c = '/' then [] :: r
    else
      match r with
      | [] => [[c]]
      | h :: t => (c :: h) :: t

/-- Model of strings.Split(s, "/"): the segments of s between slashes. -/
def strSplitSlash (s : String) : List String :=
  (splitSlash s.data).map (fun l => String.mk l)

/-- Model of strings.Join(segs, "/"): concatenation with a slash
between consecutive elements. -/
def joinSegs : List String → String
  | [] => ""
  | [s] => s
  | s :: rest => s ++ "/" ++ joinSegs rest

/-- The segment pass of filepath.Clean: empty and dot segments are
dropped, a dotdot segment cancels the preceding ordinary segment,
dotdot segments at the root of a rooted path are dropped, and leading
dotdot segments of a relative path are kept. The accumulator holds
the output segments in reverse order. -/
def cleanCore (rooted : Bool) : List String → List String → List String
  | [], acc => acc.reverse
  | seg :: rest, acc =>
    if seg = "" ∨ seg = "." then cleanCore rooted rest acc
    else if seg = ".." then
      match acc with
      | top :: acc2 =>
        if top = ".." then cleanCore rooted rest (seg :: top :: acc2)
        else cleanCore rooted rest acc2
      | [] =>
        if rooted then cleanCore rooted rest []
        else cleanCore rooted rest [".."]
    else cleanCore rooted rest (seg :: acc)

/-- Model of filepath.Clean from the Go standard library (unix
separator), per its documented rules: iteratively replace multiple
slashes by one, eliminate each dot element, eliminate each inner
dotdot element together with the non-dotdot element preceding it, and
eliminate dotdot elements that begin a rooted path; the result of
cleaning a nonempty path ends in a slash only if it is the root, and
the empty result is replaced by a single dot. -/
def Clean (path : String) : String :=
  if path = "" then "."
  else
    let rooted := strStarts path "/"
    let body := joinSegs (cleanCore rooted (strSplitSlash path) [])
    if rooted then String.mk ('/' :: body.data)
    else if body = "" then "." else body

/-- Model of filepath.Join from the Go standard library: the empty
leading elements are skipped, the remaining elements are joined with
slashes and the result is cleaned; if every element is empty the
result is the empty string. -/
def Join (elems : List String) : String :=
  match elems.dropWhile (fun s => s == "") with
  | [] => ""
  | rest => Clean (joinSegs rest)

/-- The Wiki type of the source: the root directory path. -/
structure Wiki where
  Path : String
deriving DecidableEq

/-- The Page type of the source, without the rendered Body field
(markdown rendering is done by third-party libraries and is outside
this embedding): absolute path, canonical request URI, raw text. -/
structure Page where
  Path : String
  URI : String
  Raw : String
deriving DecidableEq

/-- The PageInfo type of the source: a directory-listing entry. -/
structure PageInfo where
  URI : String
  Name : String
  IsDir : Bool
deriving DecidableEq

/-- A directory entry as returned by ioutil.ReadDir: a name and a
directory flag (the only two fields of os.FileInfo the source reads). -/
structure FileInfo where
  Name : String
  IsDir : Bool
deriving DecidableEq

/-- The Crumb type of the HTTP layer: breadcrumb name and link URI. -/
structure Crumb where
  Name : String
  URI : String
deriving DecidableEq

/-- Wiki.Local of the source: cleans the join of the root and the
request path, accepts it when it has the root as a string prefix and
does not have the join of the root with ".git" as a string prefix,
and otherwise returns the empty string with the error. Mirrors the
Go pair return (string, error) as String times Option String. -/
def Wiki.Local (w : Wiki) (path : String) : String × Option String :=
  let p := Clean (Join [w.Path, path])
  if strStarts p w.Path && !(strStarts p (Join [w.Path, ".git"])) then
    (p, none)
  else
    ("", some "path outside of repo")

/-- The filesystem model: an association list from absolute path
strings to file contents; the first binding for a path is current. -/
def FS : Type := List (String × String)

/-- Looking a path up in the filesystem model. -/
def lookupFS : List (String × String) → String → Option String
  | [], _ => none
  | (q, c) :: rest, p => if q = p then some c else lookupFS rest p

/-- Model of ioutil.WriteFile: creates or truncates the file at p. -/
def fsWrite (fs : List (String × String)) (p c : String) : List (String × String) :=
  (p, c) :: fs

/-- Model of os.Remove on a file: drops every binding of the path. -/
def removeFS : List (String × String) → String → List (String × String)
  | [], _ => []
  | (q, c) :: rest, p =>
    if q = p then removeFS rest p else (q, c) :: removeFS rest p

/-- The error a read or remove of a missing file produces. -/
def errNoFile : String := "no such file or directory"

/-- Model of ioutil.ReadFile: the contents when the path is present,
the not-found error otherwise, as a Go-style (value, error) pair. -/
def fsRead (fs : List (String × String)) (p : String) : String × Option String :=
  match lookupFS fs p with
  | some c => (c, none)
  | none => ("", some errNoFile)

/-- Wiki.Commit of the source: runs git add and git commit through
ExecIn, discards both results, and returns nil. The subprocess layer
is the environment function ex from the argument list of the
invocation to its optional error. -/
def Wiki.Commit (w : Wiki) (ex : List String → Option String) (path message : String) : Option String :=
  let _ := ex ["git", "add", "--all", path]
  let _ := ex ["git", "commit", "-m", message]
  none

/-- Wiki.Create of the source: validates the path, creates parent
directories (the MkdirAll error is assigned to err and immediately
overwritten by the WriteFile assignment, so it is modelled as the
ignored argument mkdirErr), writes the placeholder unconditionally,
and commits. Returns the updated filesystem and the Go error. -/
def Wiki.Create (w : Wiki) (ex : List String → Option String) (mkdirErr : Option String) (fs : List (String × String)) (path : String) : List (String × String) × Option String :=
  match w.Local path with
  | (_, some e) => (fs, some e)
  | (p, none) =>
    let _ := mkdirErr
    (fsWrite fs p ("# " ++ path), w.Commit ex p ("Created " ++ path))

/-- Wiki.Edit of the source: validates the path, overwrites the file
with the given contents, and commits. -/
def Wiki.Edit (w : Wiki) (ex : List String → Option String) (fs : List (String × String)) (path contents : String) : List (String × String) × Option String :=
  match w.Local path with
  | (_, some e) => (fs, some e)
  | (p, none) =>
    (fsWrite fs p contents, w.Commit ex p ("Edit to " ++ path))

/-- Wiki.Remove of the source: validates the path, deletes the file
(os.Remove fails with the not-found error when the file is missing),
and commits. -/
def Wiki.Remove (w : Wiki) (ex : List String → Option String) (fs : List (String × String)) (path : String) : List (String × String) × Option String :=
  match w.Local path with
  | (_, some e) => (fs, some e)
  | (p, none) =>
    match lookupFS fs p with
    | none => (fs, some errNoFile)
    | some _ => (removeFS fs p, w.Commit ex p ("Deleted " ++ path))

/-- Wiki.GetPage of the source: validates the path, reads the file,
and builds the Page with the absolute path, the cleaned request URI
and the raw contents; on error it returns an empty Page and the
error, as the Go code returns a pointer to an empty Page. -/
def Wiki.GetPage (w : Wiki) (fs : List (String × String)) (path : String) : Page × Option String :=
  match w.Local path with
  | (_, some e) => (⟨"", "", ""⟩, some e)
  | (p, none) =>
    match fsRead fs p with
    | (_, some e) => (⟨"", "", ""⟩, some e)
    | (body, none) => (⟨p, Clean path, body⟩, none)

/-- The loop body of Wiki.GetDir: appends a PageInfo for every entry
whose name does not begin with a dot, in order. -/
def getDirLoop (path : String) : List FileInfo → List PageInfo → List PageInfo
  | [], res => res
  | f :: rest, res =>
    if !(strStarts f.Name ".") then
      getDirLoop path rest (res ++ [⟨Join [path, f.Name], f.Name, f.IsDir⟩])
    else
      getDirLoop path rest res

/-- Wiki.GetDir of the source: validates the path, reads the
directory through the environment function readDir modelling
ioutil.ReadDir, and lists the visible entries. -/
def Wiki.GetDir (w : Wiki) (readDir : String → List FileInfo × Option String) (path : String) : List PageInfo × Option String :=
  match w.Local path with
  | (_, some e) => ([], some e)
  | (p, none) =>
    match readDir p with
    | (_, some e) => ([], some e)
    | (files, none) => (getDirLoop path files [], none)

/-- Breadcrumbs of server.go: splits the path on slashes, starts with
the home crumb, and for every index before the last emits a crumb for
each nonempty segment whose URI is the join of the segments up to and
including it. -/
def Breadcrumbs (path : String) : List Crumb :=
  let split := strSplitSlash path
  (List.range (split.length - 1)).foldl
    (fun res ix =>
      if split.getD ix "" ≠ "" then
        res ++ [⟨split.getD ix "", joinSegs (split.take (ix + 1))⟩]
      else res)
    [⟨"home", "/"⟩]

/-- Proper directory containment, following the words of the spec:
the path p lies within the directory root when it equals root or
begins with root followed by a separator. Used only to state that the
prefix test of Local differs from true containment. -/
def withinDir (root p : String) : Bool :=
  p == root || strStarts p (root ++ "/")

-- Sanity checks of the path model against documented Go behaviour.
example : Clean "" = "." := by decide
example : Clean "/" = "/" := by decide
example : Clean "a/b/" = "a/b" := by decide
example : Clean "a//b" = "a/b" := by decide
example : Clean "/w/../w2" = "/w2" := by decide
example : Clean "../a/.." = ".." := by decide
example : Clean "a/../../b" = "../b" := by decide
example : Clean "./a/./b" = "a/b" := by decide
example : Join ["/w", "a"] = "/w/a" := by decide
example : Join ["", "a"] = "a" := by decide
example : Join ["", ""] = "" := by decide
example : Join ["/w", ".git"] = "/w/.git" := by decide
example : Join ["a", "", "b"] = "a/b" := by decide
example : strStarts "/w/.gitignore" "/w/.git" = true := by decide
example : (Wiki.mk "/w").Local "a" = ("/w/a", none) := by decide
example : (Wiki.mk "/w").Local "../x" = ("", some "path outside of repo") := by decide
example : (Wiki.mk "/w").Local "../w2" = ("/w2", none) := by decide
example : (Wiki.mk "/w").Local ".gitignore" = ("", some "path outside of repo") := by decide
example : (Wiki.mk "/w").Local ".git/config" = ("", some "path outside of repo") := by decide
example : Breadcrumbs "/a/b/c" = [⟨"home", "/"⟩, ⟨"a", "/a"⟩, ⟨"b", "/a/b"⟩] := by decide
example : (Wiki.mk "/w").GetDir (fun _ => ([⟨"a", false⟩, ⟨".b", true⟩, ⟨"c", true⟩], none)) "d" = ([⟨"d/a", "a", false⟩, ⟨"d/c", "c", true⟩], none) := by decide

/-- Looking up a path after removing it finds nothing. -/
theorem lookupFS_removeFS (fs : List (String × String)) (p : String) :
    lookupFS (removeFS fs p) p = none := by
  induction fs with
  | nil => rfl
  | cons e rest ih =>
    obtain ⟨q, c⟩ := e
    by_cases h : q = p
    · simp [removeFS, h, ih]
    · simp [removeFS, lookupFS, h, ih]

/-- The GetDir loop is the filter of visible entries mapped to
PageInfo values, appended after the accumulator. -/
theorem getDirLoop_eq (path : String) (files : List FileInfo) (res : List PageInfo) :
    getDirLoop path files res =
      res ++ (files.filter (fun f => !(strStarts f.Name "."))).map
        (fun f => ⟨Join [path, f.Name], f.Name, f.IsDir⟩) := by
  induction files generalizing res with
  | nil => simp [getDirLoop]
  | cons f rest ih =>
    cases h : strStarts f.Name "." with
    | false => simp [getDirLoop, h, ih]
    | true => simp [getDirLoop, h, ih]

/-- Claim C1: Local returns the cleaned join of root and path with no
error exactly when that cleaned join has the root as a string prefix
and does not have the join of the root with ".git" as a string
prefix; otherwise it returns the empty string and the
"path outside of repo" error. -/
theorem local_accepts_iff (w : Wiki) (path : String) :
    ((strStarts (Clean (Join [w.Path, path])) w.Path = true ∧
      strStarts (Clean (Join [w.Path, path])) (Join [w.Path, ".git"]) = false) →
      w.Local path = (Clean (Join [w.Path, path]), none))
    ∧ (¬ (strStarts (Clean (Join [w.Path, path])) w.Path = true ∧
        strStarts (Clean (Join [w.Path, path])) (Join [w.Path, ".git"]) = false) →
      w.Local path = ("", some "path outside of repo")) := by
  constructor
  · intro h
    simp only [Wiki.Local]
    rw [if_pos]
    simp [h.1, h.2]
  · intro h
    simp only [Wiki.Local]
    rw [if_neg]
    intro hc
    rw [Bool.and_eq_true, Bool.not_eq_true'] at hc
    exact h hc

/-- Witness for C1 at the root "/w" and the request path "a". -/
theorem local_accepts_iff_witness :
    (Wiki.mk "/w").Local "a" = (Clean (Join ["/w", "a"]), none) :=
  (local_accepts_iff (Wiki.mk "/w") "a").1 (by decide)

/-- Claim C2: Local accepts a path whose cleaned join lands in a
sibling directory of the root whose name has the root as a string
prefix, even though that result is not inside the root. -/
theorem local_sibling_escape :
    (Wiki.mk "/w").Local "../w2" = ("/w2", none) ∧
    strStarts "/w2" "/w" = true ∧
    withinDir "/w" "/w2" = false := by decide

/-- Claim C10: Local rejects the root-level file ".gitignore" because
the cleaned join has the string root plus "/.git" as a prefix, even
though the file is inside the root and not inside the metadata
directory. -/
theorem local_rejects_gitignore :
    (Wiki.mk "/w").Local ".gitignore" = ("", some "path outside of repo") ∧
    Clean (Join ["/w", ".gitignore"]) = "/w/.gitignore" ∧
    strStarts "/w/.gitignore" (Join ["/w", ".git"]) = true ∧
    withinDir "/w" "/w/.gitignore" = true ∧
    withinDir "/w/.git" "/w/.gitignore" = false := by decide

/-- Claim C6: Commit returns nil for every path, message and every
behaviour of the underlying subprocess layer; subprocess failures are
never propagated. -/
theorem commit_always_ok (w : Wiki) (ex : List String → Option String) (path message : String) :
    w.Commit ex path message = none := rfl

/-- Claim C8: Breadcrumbs of "/a/b/c" is the home crumb followed by
one crumb per non-final nonempty segment, each linking to the prefix
of the path ending at that segment. -/
theorem breadcrumbs_abc :
    Breadcrumbs "/a/b/c" = [⟨"home", "/"⟩, ⟨"a", "/a"⟩, ⟨"b", "/a/b"⟩] := by decide

/-- Claim C9: the MkdirAll error in Create is immediately overwritten
and never inspected: on a path that validates, the result of Create
does not depend on it and Create succeeds regardless of it. -/
theorem create_ignores_mkdir_error (w : Wiki) (ex : List String → Option String) (e1 e2 : Option String) (fs : List (String × String)) (path p : String) (h : w.Local path = (p, none)) :
    w.Create ex e1 fs path = w.Create ex e2 fs path ∧
    (w.Create ex e1 fs path).2 = none := by
  simp [Wiki.Create, Wiki.Commit, h]

/-- Witness for C9: a mkdir failure at root "/w", path "a". -/
theorem create_ignores_mkdir_error_witness :
    (Wiki.mk "/w").Create (fun _ => none) (some "boom") [] "a" = (Wiki.mk "/w").Create (fun _ => none) none [] "a" ∧
    ((Wiki.mk "/w").Create (fun _ => none) (some "boom") [] "a").2 = none :=
  create_ignores_mkdir_error (Wiki.mk "/w") (fun _ => none) (some "boom") none [] "a" "/w/a" (by decide)

/-- Counterexample to claim C3 as stated: at root "/w" with the file
"/w/a" holding "hello", Create "a" replaces the contents with the
placeholder, so the existing contents are not left unchanged. -/
theorem create_overwrites_existing_cex :
    lookupFS [("/w/a", "hello")] "/w/a" = some "hello" ∧
    lookupFS ((Wiki.mk "/w").Create (fun _ => none) none [("/w/a", "hello")] "a").1 "/w/a" = some "# a" ∧
    ("# a" : String) ≠ "hello" := by decide

/-- Claim C3 as amended: on every path that validates, Create writes
the "# path" placeholder unconditionally, overwriting any existing
contents, and succeeds. -/
theorem create_writes_placeholder (w : Wiki) (ex : List String → Option String) (mkdirErr : Option String) (fs : List (String × String)) (path p : String) (h : w.Local path = (p, none)) :
    lookupFS (w.Create ex mkdirErr fs path).1 p = some ("# " ++ path) ∧
    (w.Create ex mkdirErr fs path).2 = none := by
  simp [Wiki.Create, Wiki.Commit, fsWrite, lookupFS, h]

/-- Witness for the amended C3: the file "/w/a" holds "old" before
Create and the placeholder after. -/
theorem create_writes_placeholder_witness :
    lookupFS ((Wiki.mk "/w").Create (fun _ => none) none [("/w/a", "old")] "a").1 "/w/a" = some ("# " ++ "a") ∧
    ((Wiki.mk "/w").Create (fun _ => none) none [("/w/a", "old")] "a").2 = none :=
  create_writes_placeholder (Wiki.mk "/w") (fun _ => none) none [("/w/a", "old")] "a" "/w/a" (by decide)

/-- Claim C4: on every path that validates, a successful Edit
followed by GetPage returns the Page whose Raw field is exactly the
contents written. -/
theorem edit_then_getpage (w : Wiki) (ex : List String → Option String) (fs : List (String × String)) (path contents p : String) (h : w.Local path = (p, none)) :
    (w.Edit ex fs path contents).2 = none ∧
    w.GetPage (w.Edit ex fs path contents).1 path = (⟨p, Clean path, contents⟩, none) ∧
    ((w.GetPage (w.Edit ex fs path contents).1 path).1).Raw = contents := by
  simp [Wiki.Edit, Wiki.GetPage, Wiki.Commit, fsWrite, fsRead, lookupFS, h]

/-- Witness for C4 at root "/w", path "a", contents "hello". -/
theorem edit_then_getpage_witness :
    ((Wiki.mk "/w").Edit (fun _ => none) [] "a" "hello").2 = none ∧
    (Wiki.mk "/w").GetPage ((Wiki.mk "/w").Edit (fun _ => none) [] "a" "hello").1 "a" = (⟨"/w/a", Clean "a", "hello"⟩, none) ∧
    (((Wiki.mk "/w").GetPage ((Wiki.mk "/w").Edit (fun _ => none) [] "a" "hello").1 "a").1).Raw = "hello" :=
  edit_then_getpage (Wiki.mk "/w") (fun _ => none) [] "a" "hello" "/w/a" (by decide)

/-- Claim C5: Remove propagates the validation error, fails with the
not-found error when the file is missing, and otherwise deletes the
file and succeeds, after which GetPage on the same path fails with
the not-found error. -/
theorem remove_spec (w : Wiki) (ex : List String → Option String) (fs : List (String × String)) (path : String) :
    (∀ e, w.Local path = ("", some e) → w.Remove ex fs path = (fs, some e))
    ∧ (∀ p, w.Local path = (p, none) → lookupFS fs p = none →
        w.Remove ex fs path = (fs, some errNoFile))
    ∧ (∀ p c, w.Local path = (p, none) → lookupFS fs p = some c →
        (w.Remove ex fs path = (removeFS fs p, none)
         ∧ lookupFS (w.Remove ex fs path).1 p = none
         ∧ (w.GetPage (w.Remove ex fs path).1 path).2 = some errNoFile)) := by
  refine ⟨fun e h => ?_, fun p h hl => ?_, fun p c h hl => ?_⟩
  · simp [Wiki.Remove, h]
  · simp [Wiki.Remove, h, hl]
  · have hr : w.Remove ex fs path = (removeFS fs p, none) := by
      simp [Wiki.Remove, Wiki.Commit, h, hl]
    refine ⟨hr, ?_, ?_⟩
    · rw [hr]
      exact lookupFS_removeFS fs p
    · rw [hr]
      simp [Wiki.GetPage, fsRead, h, lookupFS_removeFS]

/-- Witness for C5: removing the sole file "/w/a" at root "/w"
succeeds and a GetPage of the same path then fails as missing. -/
theorem remove_spec_witness :
    (Wiki.mk "/w").Remove (fun _ => none) [("/w/a", "x")] "a" = (removeFS [("/w/a", "x")] "/w/a", none)
    ∧ lookupFS ((Wiki.mk "/w").Remove (fun _ => none) [("/w/a", "x")] "a").1 "/w/a" = none
    ∧ ((Wiki.mk "/w").GetPage ((Wiki.mk "/w").Remove (fun _ => none) [("/w/a", "x")] "a").1 "a").2 = some errNoFile :=
  (remove_spec (Wiki.mk "/w") (fun _ => none) [("/w/a", "x")] "a").2.2 "/w/a" "x" (by decide) (by decide)

/-- Claim C7: on a valid directory path whose read succeeds, GetDir
returns one PageInfo per child whose name does not begin with a dot,
in order, carrying the name, the join of the request path with the
name as its URI, and the directory flag of the child. -/
theorem getdir_spec (w : Wiki) (readDir : String → List FileInfo × Option String) (path p : String) (files : List FileInfo) (h1 : w.Local path = (p, none)) (h2 : readDir p = (files, none)) :
    w.GetDir readDir path =
      ((files.filter (fun f => !(strStarts f.Name "."))).map
        (fun f => ⟨Join [path, f.Name], f.Name, f.IsDir⟩), none) := by
  simp [Wiki.GetDir, h1, h2, getDirLoop_eq]

/-- Witness for C7: a listing with one hidden entry at root "/w",
request path "d". -/
theorem getdir_spec_witness :
    (Wiki.mk "/w").GetDir (fun _ => ([⟨"a", false⟩, ⟨".b", true⟩, ⟨"c", true⟩], none)) "d" =
      ((([⟨"a", false⟩, ⟨".b", true⟩, ⟨"c", true⟩] : List FileInfo).filter (fun f => !(strStarts f.Name "."))).map
        (fun f => ⟨Join ["d", f.Name], f.Name, f.IsDir⟩), none) :=
  getdir_spec (Wiki.mk "/w") (fun _ => ([⟨"a", false⟩, ⟨".b", true⟩, ⟨"c", true⟩], none)) "d" "/w/d" [⟨"a", false⟩, ⟨".b", true⟩, ⟨"c", true⟩] (by decide) rfl
